import Mathlib

/-!
Verification development for the multi-server MCP client repository
(Personal_Ai_Agent_Using_MCP).  The definitions below are a shallow
embedding of the Python source:

* `src/client/main_test.py` — the session orchestrator `run_agent`, the
  conversation state store (`InMemoryHistory`, `MessageHistoryStore`),
  the environment-substitution helper `format_env`, and the interactive
  query loop;
* `src/servers/calculator/server.py` — the calculator tools;
* `src/servers/unit_conversion_tool/server.py` — the `convert` tool.

Python strings manipulated character-wise are modelled as `List Char`;
Python numbers (ints and floats) are modelled as `Int`/`ℚ` with exact
arithmetic; a raised exception is modelled as `Except.error`; `None` is
modelled as `Option.none`; a Python `dict` is modelled as an association
list with unique keys (insertion appends at the end, as CPython dicts
preserve insertion order).  External collaborators (the MCP transport,
pint, the exchange-rate HTTP service, the LangChain agent) are passed in
as explicit function parameters, since the source treats them as opaque.
-/

/-! ### Capability aggregation (src/client/main_test.py, run_agent lines 174-210) -/

/-- One tool descriptor as aggregated by `run_agent`: the tool name reported
by `load_mcp_tools` and the server (session) it was loaded from. -/
structure McpTool where
  name : String
  server : String
deriving DecidableEq, Repr

/-- One configured server entry together with the outcome of the connection
attempt made for it inside the `for server_name, server_info in
mcp_servers.items()` loop: `none` models the `except Exception` branch (the
launch, handshake or tool-load raised), `some ts` models a successful
connection that yielded the tool list `ts`. -/
structure ServerEntry where
  name : String
  result : Option (List McpTool)
deriving DecidableEq, Repr

/-- The body of the connection loop of `run_agent` (main_test.py lines
175-206): every configured entry is visited in configuration order
(`logger.info("Connecting ...")` runs unconditionally, modelled by the first
component); on success the entry's tools are appended to the shared `tools`
list one by one (`for tool in server_tools: tools.append(tool)`); on failure
the exception is logged and the loop continues.  Returns (attempted server
names, aggregated tools). -/
def runServers (entries : List ServerEntry) : List String × List McpTool :=
  entries.foldl
    (fun acc e =>
      (acc.1 ++ [e.name],
       match e.result with
       | some ts => acc.2 ++ ts
       | none => acc.2))
    ([], [])

/-- The aggregated tool catalog `tools` after the connection loop. -/
def loadedTools (entries : List ServerEntry) : List McpTool :=
  (runServers entries).2

/-- The servers the loop attempted to connect to, in order. -/
def attemptedServers (entries : List ServerEntry) : List String :=
  (runServers entries).1

/-- The tool list an entry contributed (empty for a failed entry). -/
def entryTools (e : ServerEntry) : List McpTool :=
  e.result.getD []

/-- How far `run_agent` gets before the interactive query loop
(main_test.py lines 143-146 and 208-210): with no configured servers it
logs "No MCP servers found" and returns; with an empty aggregated tool
list it logs "No tools loaded from any server. Exiting." and returns;
otherwise it builds the agent and enters the query loop. -/
inductive RunOutcome where
  | noServersConfigured
  | noToolsLoaded
  | agentReady
deriving DecidableEq, Repr

/-- The early-exit structure of `run_agent` around the connection loop. -/
def runAgentOutcome (entries : List ServerEntry) : RunOutcome :=
  if entries.isEmpty then RunOutcome.noServersConfigured
  else if (loadedTools entries).isEmpty then RunOutcome.noToolsLoaded
  else RunOutcome.agentReady

/-! ### Session-scope teardown (src/client/main_test.py, lines 174-192)

`run_agent` opens every transport and session with
`stack.enter_async_context(...)` on a single `AsyncExitStack`; leaving the
`async with` block — on normal completion, on an exception, or on a user
interrupt — runs the stack's unwind.  `contextlib.AsyncExitStack` pops the
registered exit callbacks in LIFO order and keeps unwinding even when one
callback raises (its `__aexit__` chains the remaining callbacks inside
nested exception handlers), which is what `unwindRevOpened` models: the
parameter `closeOk` tells whether a given session's `close` succeeds, and
the result is (sessions whose close was attempted, in order; sessions whose
close failed). -/

/-- How the `async with` block was exited. -/
inductive ExitKind where
  | normal
  | error
  | interrupt
deriving DecidableEq, Repr

/-- Unwind a stack given with the most recently opened session first:
attempt every close, collecting the failures, never stopping early. -/
def unwindRevOpened (closeOk : String → Bool) : List String → List String × List String
  | [] => ([], [])
  | s :: rest =>
    let r := unwindRevOpened closeOk rest
    (s :: r.1, (if closeOk s then [] else [s]) ++ r.2)

/-- Unwind an `AsyncExitStack` holding `opened` (in order of successful
establishment): closes run in reverse (LIFO) order. -/
def unwindStack (closeOk : String → Bool) (opened : List String) : List String × List String :=
  unwindRevOpened closeOk opened.reverse

/-- The close sequence `run_agent`'s session scope performs when it exits:
the `async with AsyncExitStack()` block runs the same unwind on every exit
path, whatever `ExitKind` caused the exit. -/
def sessionScopeCloses (closeOk : String → Bool) (opened : List String)
    (_k : ExitKind) : List String × List String :=
  unwindStack closeOk opened

/-! ### Conversation state store (src/client/main_test.py, lines 40-69) -/

/-- One role-tagged chat message (langchain message classes used by the
client: `SystemMessage`, `HumanMessage`, `AIMessage`). -/
inductive ChatMsg where
  | system (content : String)
  | human (content : String)
  | ai (content : String)
deriving DecidableEq, Repr

/-- `InMemoryHistory`: a list of messages (`self._messages`). -/
structure InMemoryHistory where
  messages : List ChatMsg
deriving DecidableEq, Repr

/-- `InMemoryHistory.add_message`: `self._messages.append(message)`. -/
def InMemoryHistory.add_message (h : InMemoryHistory) (m : ChatMsg) : InMemoryHistory :=
  ⟨h.messages ++ [m]⟩

/-- `InMemoryHistory.clear`: `self._messages = []`. -/
def InMemoryHistory.clearAll (_h : InMemoryHistory) : InMemoryHistory :=
  ⟨[]⟩

/-- Lookup in the `self.histories` dict, modelled as an association list
with unique keys (first match). -/
def lookupHist : List (String × InMemoryHistory) → String → Option InMemoryHistory
  | [], _ => none
  | (k, v) :: rest, sid => if k = sid then some v else lookupHist rest sid

/-- In-place update of the entry for `sid` (mutating the dict value the
Python code holds an alias to). -/
def updateHist (f : InMemoryHistory → InMemoryHistory) :
    List (String × InMemoryHistory) → String → List (String × InMemoryHistory)
  | [], _ => []
  | (k, v) :: rest, sid =>
    if k = sid then (k, f v) :: rest else (k, v) :: updateHist f rest sid

/-- `MessageHistoryStore`: `self.histories: Dict[str, InMemoryHistory]`. -/
structure MessageHistoryStore where
  histories : List (String × InMemoryHistory)
deriving DecidableEq, Repr

/-- `MessageHistoryStore.get_session_history`: create an empty history on
first access for `session_id`, then return the stored history.  In the
state-passing embedding the (possibly grown) store is returned alongside
the history the Python code gets an alias to. -/
def MessageHistoryStore.get_session_history (s : MessageHistoryStore) (sid : String) :
    MessageHistoryStore × InMemoryHistory :=
  match lookupHist s.histories sid with
  | some h => (s, h)
  | none => (⟨s.histories ++ [(sid, ⟨[]⟩)]⟩, ⟨[]⟩)

/-- Appending a message through the alias returned by
`get_session_history` (what `RunnableWithMessageHistory` does after a
turn): `store.get_session_history(sid).add_message(m)`. -/
def storeAdd (s : MessageHistoryStore) (sid : String) (m : ChatMsg) : MessageHistoryStore :=
  let s1 := (s.get_session_history sid).1
  ⟨updateHist (fun h => h.add_message m) s1.histories sid⟩

/-- Appending a whole list of messages of one completed turn, in order. -/
def storeAddAll (s : MessageHistoryStore) (sid : String) (ms : List ChatMsg) :
    MessageHistoryStore :=
  ms.foldl (fun st m => storeAdd st sid m) s

/-- The `clear memory` command's effect on the store
(main_test.py line 240): `get_session_history(session_id).clear()`. -/
def storeClear (s : MessageHistoryStore) (sid : String) : MessageHistoryStore :=
  let s1 := (s.get_session_history sid).1
  ⟨updateHist (fun h => h.clearAll) s1.histories sid⟩

/-- The messages currently stored for `sid` (empty when absent, which is
also what a first `get_session_history` would hand out). -/
def sessionMessages (s : MessageHistoryStore) (sid : String) : List ChatMsg :=
  ((s.get_session_history sid).2).messages

/-! ### The interactive query loop (src/client/main_test.py, lines 233-283) -/

/-- One iteration's input: `quit` breaks the loop; `clear memory` resets
both history trackers; a query runs the agent.  For a query, `turnMsgs` is
the message sequence the external `RunnableWithMessageHistory` wrapper
appends to the stored session history for the completed turn (it only ever
calls `add_message`), and `resp` is the agent's final answer text. -/
inductive LoopCmd where
  | quit
  | clearMemory
  | query (q : String) (turnMsgs : List ChatMsg) (resp : String)
deriving DecidableEq, Repr

/-- The mutable state of the query loop: the local `chat_history` list and
the `MessageHistoryStore` (session id fixed to `"main"`). -/
structure AgentLoopState where
  chat_history : List ChatMsg
  store : MessageHistoryStore
deriving DecidableEq, Repr

/-- One iteration of the `while True` loop of `run_agent`:
`quit` leaves the state untouched and breaks; `clear memory` sets
`chat_history = []` and clears the stored session history; a query appends
`HumanMessage(query)` and `AIMessage(ai_response)` to `chat_history` and
lets the history wrapper append the turn's messages to the store. -/
def loopStep (st : AgentLoopState) : LoopCmd → AgentLoopState
  | LoopCmd.quit => st
  | LoopCmd.clearMemory =>
    { chat_history := [], store := storeClear st.store "main" }
  | LoopCmd.query q turnMsgs resp =>
    { chat_history := st.chat_history ++ [ChatMsg.human q, ChatMsg.ai resp],
      store := storeAddAll st.store "main" turnMsgs }

/-! ### Environment substitution helper (src/client/main_test.py, format_env lines 118-139)

Python strings are modelled as `List Char`; `os.getenv` is the parameter
`getenv` (`none` = variable unset). -/

/-- `value.startswith("${{") and value.endswith("}}")`. -/
def placeholderShaped (v : List Char) : Bool :=
  decide (['$', '{', '{'] <+: v) && decide (['}', '}'] <:+ v)

/-- `env_var_name = value[3:-2]`. -/
def placeholderName (v : List Char) : List Char :=
  (v.drop 3).take ((v.drop 3).length - 2)

/-- The per-value substitution performed by `format_env`: a value of
placeholder shape is replaced by `os.getenv(name)`, with `None` mapped to
the empty string (`processed_env[key] = ""`); any other value is left
unchanged. -/
def formatValue (getenv : List Char → Option (List Char)) (v : List Char) : List Char :=
  if placeholderShaped v then (getenv (placeholderName v)).getD [] else v

/-- `format_env`: copy the dict and substitute every value. -/
def format_env (getenv : List Char → Option (List Char))
    (env : List (List Char × List Char)) : List (List Char × List Char) :=
  env.map (fun kv => (kv.1, formatValue getenv kv.2))

/-- The placeholder written `${{NAME}}` for a given `NAME`. -/
def placeholderOf (n : List Char) : List Char :=
  ['$', '{', '{'] ++ n ++ ['}', '}']

/-! ### Calculator server (src/servers/calculator/server.py) -/

/-- `add(a, b) -> a + b`. -/
def calcAdd (a b : Int) : Int := a + b

/-- `subtract(a, b) -> a - b`. -/
def calcSubtract (a b : Int) : Int := a - b

/-- `multiply(a, b) -> a * b`. -/
def calcMultiply (a b : Int) : Int := a * b

/-- `divide(a, b) -> a / b` with no zero guard: Python true division of two
ints raises `ZeroDivisionError("division by zero")` when `b == 0` and
otherwise produces the quotient (a float, modelled here as the exact
rational it approximates).  The raised exception is modelled as
`Except.error`, as opposed to a structured error payload. -/
def divide (a b : Int) : Except String ℚ :=
  if b = 0 then Except.error "division by zero"
  else Except.ok ((a : ℚ) / (b : ℚ))

/-! ### Unit conversion server (src/servers/unit_conversion_tool/server.py) -/

/-- Python truthiness of an optional string (`None` and `""` are falsy). -/
def pyTruthy : Option String → Bool
  | none => false
  | some s => !(s == "")

/-- The `ConversionInput` dataclass. -/
structure ConversionInput where
  value : ℚ
  from_unit : Option String
  to_unit : Option String
  from_currency : Option String
  to_currency : Option String
deriving DecidableEq, Repr

/-- The two external collaborators of `convert`: `unitConvert` models
pint's `(value * ureg(from)).to(to)` (`Except.error` = pint raised);
`fetchRates` models the exchange-rate HTTP round trip for an api key and a
base currency (`Except.error` = `requests`/`json` raised, `Except.ok none`
= non-200 status or missing `conversion_rates`, `Except.ok (some rates)` =
the `conversion_rates` table as a lookup; `rates c = none` = `.get`
returned `None`). -/
structure ConvertDeps where
  unitConvert : ℚ → String → String → Except String ℚ
  fetchRates : String → String → Except String (Option (String → Option ℚ))

/-- The structured payloads `convert` returns.  Success payloads carry the
fields of the source's success dicts; `error` carries the message of the
corresponding `{"status": "error", ...}` dict. -/
inductive ConvertResult where
  | unitSuccess (original_value : ℚ) (original_unit : String)
      (converted_value : ℚ) (converted_unit : String)
  | currencySuccess (original_value : ℚ) (original_currency : String)
      (converted_value : ℚ) (converted_currency : String)
  | error (message : String)
deriving DecidableEq

/-- The `status` field of the returned dict. -/
def ConvertResult.status : ConvertResult → String
  | ConvertResult.error _ => "error"
  | _ => "success"

/-- Python's `round(x, 2)`, modelled as nearest-rational rounding to two
decimal places (the source rounds a float; exact rational rounding stands
in for the float's round-half-even). -/
def round2 (q : ℚ) : ℚ := ((round (q * 100) : ℤ) : ℚ) / 100

/-- The `convert` tool.  `apiKey` is `os.getenv("EXCHANGERATE_API_KEY")`;
the key guard runs first, before either conversion branch.  The branch
conditions use Python truthiness of the dataclass fields; the whole body
after the guard sits in a `try` whose handler returns a
`Conversion failed:` error payload. -/
def convert (deps : ConvertDeps) (apiKey : Option String)
    (input_data : ConversionInput) : ConvertResult :=
  if !(pyTruthy apiKey) then
    ConvertResult.error "ExchangeRate API key is required."
  else if pyTruthy input_data.from_unit && pyTruthy input_data.to_unit then
    let from_u := (input_data.from_unit.getD "").trim.toLower
    let to_u := (input_data.to_unit.getD "").trim.toLower
    match deps.unitConvert input_data.value from_u to_u with
    | Except.ok m => ConvertResult.unitSuccess input_data.value from_u m to_u
    | Except.error e => ConvertResult.error ("Conversion failed: " ++ e)
  else if pyTruthy input_data.from_currency && pyTruthy input_data.to_currency then
    let from_c := (input_data.from_currency.getD "").trim.toUpper
    let to_c := (input_data.to_currency.getD "").trim.toUpper
    match deps.fetchRates (apiKey.getD "") from_c with
    | Except.error e => ConvertResult.error ("Conversion failed: " ++ e)
    | Except.ok none => ConvertResult.error "Failed to fetch currency data."
    | Except.ok (some rates) =>
      match rates to_c with
      | some r =>
        if r = 0 then ConvertResult.error ("No conversion rate for " ++ to_c ++ ".")
        else ConvertResult.currencySuccess input_data.value from_c
          (round2 (input_data.value * r)) to_c
      | none => ConvertResult.error ("No conversion rate for " ++ to_c ++ ".")
  else
    ConvertResult.error "Please provide either unit or currency conversion fields."

/-! ### Concrete test configurations -/

/-- Two live sessions that both advertise a tool named `convert`. -/
def twoConvertEntries : List ServerEntry :=
  [⟨"s1", some [⟨"convert", "s1"⟩]⟩, ⟨"s2", some [⟨"convert", "s2"⟩]⟩]

/-- A configuration whose middle entry fails to launch while its
neighbours load tools. -/
def mixedEntries : List ServerEntry :=
  [⟨"calc", some [⟨"add", "calc"⟩]⟩, ⟨"broken", none⟩,
   ⟨"conv", some [⟨"convert", "conv"⟩]⟩]

/-- A configuration in which every connection attempt raises. -/
def allFailedEntries : List ServerEntry :=
  [⟨"a", none⟩, ⟨"b", none⟩]

/-- A concrete process environment: only `HOME` is set. -/
def getenvEx : List Char → Option (List Char) :=
  fun n => if n = "HOME".toList then some "/root".toList else none

/-- A concrete env-override mapping with one placeholder value and one
literal value. -/
def envEx : List (List Char × List Char) :=
  [("path".toList, placeholderOf "HOME".toList), ("mode".toList, "literal".toList)]

/-! ## Helper lemmas -/

/-- Unfolding the connection loop: the attempted list extends by every
entry name and the tool list extends by every successful entry's tools. -/
theorem runServers_foldl (entries : List ServerEntry) (acc : List String × List McpTool) :
    entries.foldl
      (fun acc e =>
        (acc.1 ++ [e.name],
         match e.result with
         | some ts => acc.2 ++ ts
         | none => acc.2))
      acc
    = (acc.1 ++ entries.map ServerEntry.name,
       acc.2 ++ (entries.map entryTools).flatten) := by
  induction entries generalizing acc with
  | nil => simp
  | cons e rest ih =>
    cases h : e.result with
    | none =>
      simp [List.foldl_cons, ih, entryTools, h, List.append_assoc]
    | some ts =>
      simp [List.foldl_cons, ih, entryTools, h, List.append_assoc]

/-- The connection loop visits every configured entry and concatenates the
successful entries' tool lists in configuration order. -/
theorem runServers_eq (entries : List ServerEntry) :
    runServers entries
      = (entries.map ServerEntry.name, (entries.map entryTools).flatten) := by
  simpa using runServers_foldl entries ([], [])

theorem loadedTools_eq (entries : List ServerEntry) :
    loadedTools entries = (entries.map entryTools).flatten := by
  simp [loadedTools, runServers_eq]

theorem attemptedServers_eq (entries : List ServerEntry) :
    attemptedServers entries = entries.map ServerEntry.name := by
  simp [attemptedServers, runServers_eq]

/-- The unwind attempts every close, in stack order, independently of
which closes fail. -/
theorem unwindRevOpened_fst (closeOk : String → Bool) (l : List String) :
    (unwindRevOpened closeOk l).1 = l := by
  induction l with
  | nil => rfl
  | cons s rest ih => simp [unwindRevOpened, ih]

/-- A key the dict does not hold yet is looked up in a freshly appended
final entry. -/
theorem lookupHist_append_of_none (l : List (String × InMemoryHistory))
    (sid k : String) (h : InMemoryHistory) (hl : lookupHist l k = none) :
    lookupHist (l ++ [(sid, h)]) k = if sid = k then some h else none := by
  induction l with
  | nil => simp [lookupHist]
  | cons kv rest ih =>
    obtain ⟨k1, v1⟩ := kv
    by_cases hk : k1 = k
    · simp [lookupHist, hk] at hl
    · simp only [List.cons_append, lookupHist, hk, if_false] at hl ⊢
      exact ih hl

/-- A key the dict already holds is unaffected by appending an entry. -/
theorem lookupHist_append_of_some (l : List (String × InMemoryHistory))
    (sid k : String) (h v : InMemoryHistory) (hl : lookupHist l k = some v) :
    lookupHist (l ++ [(sid, h)]) k = some v := by
  induction l with
  | nil => simp [lookupHist] at hl
  | cons kv rest ih =>
    obtain ⟨k1, v1⟩ := kv
    by_cases hk : k1 = k
    · simp [lookupHist, hk] at hl ⊢
      exact hl
    · simp only [List.cons_append, lookupHist, hk, if_false] at hl ⊢
      exact ih hl

/-- Lookup after an in-place update at the same key. -/
theorem lookupHist_updateHist_self (f : InMemoryHistory → InMemoryHistory)
    (l : List (String × InMemoryHistory)) (sid : String) :
    lookupHist (updateHist f l sid) sid = (lookupHist l sid).map f := by
  induction l with
  | nil => simp [lookupHist, updateHist]
  | cons kv rest ih =>
    obtain ⟨k1, v1⟩ := kv
    by_cases hk : k1 = sid
    · simp [lookupHist, updateHist, hk]
    · simp [lookupHist, updateHist, hk, ih]

/-- Lookup of a different key after an in-place update. -/
theorem lookupHist_updateHist_ne (f : InMemoryHistory → InMemoryHistory)
    (l : List (String × InMemoryHistory)) (sid k : String) (hne : k ≠ sid) :
    lookupHist (updateHist f l sid) k = lookupHist l k := by
  induction l with
  | nil => simp [updateHist]
  | cons kv rest ih =>
    obtain ⟨k1, v1⟩ := kv
    by_cases hk : k1 = sid
    · simp [lookupHist, updateHist, hk, Ne.symm hne]
    · simp [lookupHist, updateHist, hk, ih]

/-- The store component returned by `get_session_history` always holds an
entry for the requested id, containing the returned history. -/
theorem lookupHist_get_session_history (s : MessageHistoryStore) (sid : String) :
    lookupHist ((s.get_session_history sid).1).histories sid
      = some (s.get_session_history sid).2 := by
  unfold MessageHistoryStore.get_session_history
  cases hl : lookupHist s.histories sid with
  | some h => simp [hl]
  | none =>
    simp only [hl]
    rw [lookupHist_append_of_none _ _ _ _ hl]
    simp

/-- The history `get_session_history` hands out, in terms of the raw
lookup. -/
theorem get_session_history_snd (s : MessageHistoryStore) (sid : String) :
    (s.get_session_history sid).2 = (lookupHist s.histories sid).getD ⟨[]⟩ := by
  unfold MessageHistoryStore.get_session_history
  cases hl : lookupHist s.histories sid <;> simp [hl]

/-- The messages of the history `get_session_history` hands out. -/
theorem sessionMessages_eq (s : MessageHistoryStore) (sid : String) :
    sessionMessages s sid = ((lookupHist s.histories sid).getD ⟨[]⟩).messages := by
  rw [sessionMessages, get_session_history_snd]

/-- Appending through the store grows exactly the addressed session's
message list by one message at the end. -/
theorem sessionMessages_storeAdd_self (s : MessageHistoryStore) (sid : String) (m : ChatMsg) :
    sessionMessages (storeAdd s sid m) sid = sessionMessages s sid ++ [m] := by
  unfold storeAdd
  rw [sessionMessages_eq, sessionMessages_eq]
  simp only [lookupHist_updateHist_self, lookupHist_get_session_history]
  rw [get_session_history_snd]
  simp [InMemoryHistory.add_message]

/-- Appending to one session leaves every other session's dict entry
unchanged. -/
theorem lookupHist_storeAdd_ne (s : MessageHistoryStore) (sid k : String) (m : ChatMsg)
    (hne : k ≠ sid) :
    lookupHist (storeAdd s sid m).histories k = lookupHist s.histories k := by
  unfold storeAdd
  rw [lookupHist_updateHist_ne _ _ _ _ hne]
  unfold MessageHistoryStore.get_session_history
  cases hl : lookupHist s.histories sid with
  | some h => simp
  | none =>
    simp only []
    cases hk : lookupHist s.histories k with
    | some v => rw [lookupHist_append_of_some _ _ _ _ _ hk]
    | none =>
      rw [lookupHist_append_of_none _ _ _ _ hk]
      rw [if_neg (fun hh => hne hh.symm)]

/-- The other sessions' visible message lists are untouched by an append. -/
theorem sessionMessages_storeAdd_ne (s : MessageHistoryStore) (sid k : String) (m : ChatMsg)
    (hne : k ≠ sid) :
    sessionMessages (storeAdd s sid m) k = sessionMessages s k := by
  rw [sessionMessages_eq, sessionMessages_eq, lookupHist_storeAdd_ne _ _ _ _ hne]

/-- Clearing through the store empties the addressed session's messages. -/
theorem sessionMessages_storeClear_self (s : MessageHistoryStore) (sid : String) :
    sessionMessages (storeClear s sid) sid = [] := by
  unfold storeClear
  rw [sessionMessages_eq]
  simp only [lookupHist_updateHist_self, lookupHist_get_session_history]
  simp [InMemoryHistory.clearAll]

/-- Appending a turn's messages one by one appends the whole turn. -/
theorem sessionMessages_storeAddAll (s : MessageHistoryStore) (sid : String)
    (ms : List ChatMsg) :
    sessionMessages (storeAddAll s sid ms) sid = sessionMessages s sid ++ ms := by
  induction ms generalizing s with
  | nil => simp [storeAddAll]
  | cons m rest ih =>
    have hstep : storeAddAll s sid (m :: rest) = storeAddAll (storeAdd s sid m) sid rest := rfl
    rw [hstep, ih, sessionMessages_storeAdd_self]
    simp

/-- A second `get_session_history` for the same id returns the same store
and the same history as the first. -/
theorem get_session_history_stable (s : MessageHistoryStore) (sid : String) :
    ((s.get_session_history sid).1).get_session_history sid
      = ((s.get_session_history sid).1, (s.get_session_history sid).2) := by
  have h := lookupHist_get_session_history s sid
  conv_lhs => rw [MessageHistoryStore.get_session_history, h]

/-- A value written `${{NAME}}` passes the placeholder shape test. -/
theorem placeholderShaped_placeholderOf (n : List Char) :
    placeholderShaped (placeholderOf n) = true := by
  unfold placeholderShaped placeholderOf
  simp only [Bool.and_eq_true, decide_eq_true_eq]
  constructor
  · exact List.prefix_append _ _
  · exact (List.suffix_append n ['}', '}']).trans
      (List.suffix_append ['$', '{', '{'] (n ++ ['}', '}']))

/-- `value[3:-2]` recovers the variable name of `${{NAME}}`. -/
theorem placeholderName_placeholderOf (n : List Char) :
    placeholderName (placeholderOf n) = n := by
  unfold placeholderName
  have h1 : (placeholderOf n).drop 3 = n ++ ['}', '}'] :=
    List.drop_left ['$', '{', '{'] (n ++ ['}', '}'])
  rw [h1]
  have h2 : (n ++ ['}', '}']).length - 2 = n.length := by simp
  rw [h2]
  exact List.take_left n ['}', '}']

/-! ## Claim theorems -/

/-- Claim C1, counterexample: with two live sessions both advertising a
tool named `convert`, the catalog `run_agent` builds does NOT contain
exactly one entry for that name — both registrations are appended, so the
catalog holds two entries named `convert` (and no collision is recorded
anywhere, since the loop has no collision handling at all). -/
theorem c1_collision_counterexample :
    ¬((loadedTools twoConvertEntries).countP (fun t => t.name == "convert") = 1) ∧
    (loadedTools twoConvertEntries).countP (fun t => t.name == "convert") = 2 ∧
    loadedTools twoConvertEntries
      = [⟨"convert", "s1"⟩, ⟨"convert", "s2"⟩] := by
  decide

/-- Claim C1, amended: the aggregated catalog keeps one entry per
registration rather than one per name — it is the concatenation of the
successful sessions' tool lists in configuration order (so the first
registering session's entry does come first), and the number of entries
carrying a name is the total number of registrations of that name, so a
second registration is appended as a duplicate rather than dropped, and no
collision warning is recorded. -/
theorem c1_registry_keeps_duplicates (entries : List ServerEntry) (n : String) :
    loadedTools entries = (entries.map entryTools).flatten ∧
    (loadedTools entries).countP (fun t => t.name == n)
      = ((entries.map (fun e => (entryTools e).countP (fun t => t.name == n))).sum) := by
  refine ⟨loadedTools_eq entries, ?_⟩
  rw [loadedTools_eq, List.countP_flatten, List.map_map]
  rfl

/-- Claim C2: if some entries of the configuration fail to launch or
handshake (modelled by `result = none`), the connection loop still visits
every configured entry, and every tool of every successfully opened entry
appears in the aggregated catalog — a failure never aborts the run. -/
theorem c2_failure_isolation (entries : List ServerEntry) (e : ServerEntry)
    (ts : List McpTool) (t : McpTool) (he : e ∈ entries) (hr : e.result = some ts)
    (ht : t ∈ ts) :
    attemptedServers entries = entries.map ServerEntry.name ∧ t ∈ loadedTools entries := by
  refine ⟨attemptedServers_eq entries, ?_⟩
  rw [loadedTools_eq]
  exact List.mem_flatten.mpr
    ⟨entryTools e, List.mem_map_of_mem _ he, by simpa [entryTools, hr] using ht⟩

/-- Claim C2, witness: in a three-entry configuration whose middle entry
fails, the loop attempts all three and the third entry's tool is in the
catalog. -/
theorem c2_witness :
    (⟨"conv", some [⟨"convert", "conv"⟩]⟩ : ServerEntry) ∈ mixedEntries ∧
    (attemptedServers mixedEntries = mixedEntries.map ServerEntry.name ∧
      (⟨"convert", "conv"⟩ : McpTool) ∈ loadedTools mixedEntries) :=
  ⟨by decide,
   c2_failure_isolation mixedEntries ⟨"conv", some [⟨"convert", "conv"⟩]⟩
     [⟨"convert", "conv"⟩] ⟨"convert", "conv"⟩ (by decide) rfl (by decide)⟩

/-- Claim C3: whatever caused the session scope to exit (normal
completion, an error, or a user interrupt), the exit stack attempts
`close` for exactly the successfully opened sessions, in reverse
(LIFO) order of establishment — so each opened session's close runs
exactly once — and the attempted-close sequence does not depend on which
closes fail (`closeOk` does not appear on the right-hand side), so one
session's teardown failure never prevents the others' teardown. -/
theorem c3_lifo_teardown (closeOk : String → Bool) (opened : List String) (k : ExitKind) :
    (sessionScopeCloses closeOk opened k).1 = opened.reverse ∧
    ∀ s, ((sessionScopeCloses closeOk opened k).1).count s = opened.count s := by
  have h1 : (sessionScopeCloses closeOk opened k).1 = opened.reverse :=
    unwindRevOpened_fst closeOk opened.reverse
  refine ⟨h1, fun s => ?_⟩
  rw [h1]
  exact List.count_reverse s opened

/-- Claim C4: when no server contributed a session (every connection
attempt failed), `run_agent` never reaches the interactive query loop; for
a nonempty configuration it reports the terminal "No tools loaded from any
server" condition and returns. -/
theorem c4_no_usable_servers (entries : List ServerEntry)
    (hall : ∀ e ∈ entries, e.result = none) :
    runAgentOutcome entries ≠ RunOutcome.agentReady ∧
    (entries ≠ [] → runAgentOutcome entries = RunOutcome.noToolsLoaded) := by
  have hload : loadedTools entries = [] := by
    rw [loadedTools_eq]
    refine List.flatten_eq_nil_iff.mpr ?_
    intro l hl
    obtain ⟨e, he, rfl⟩ := List.mem_map.mp hl
    simp [entryTools, hall e he]
  constructor
  · unfold runAgentOutcome
    cases entries with
    | nil => simp
    | cons e rest => simp [hload]
  · intro hne
    unfold runAgentOutcome
    rw [if_neg, if_pos]
    · rw [hload]
      rfl
    · simpa using hne

/-- Claim C4, witness: a two-entry configuration in which both connection
attempts raise yields the terminal no-tools outcome. -/
theorem c4_witness :
    (∀ e ∈ allFailedEntries, e.result = none) ∧
    (runAgentOutcome allFailedEntries ≠ RunOutcome.agentReady ∧
      (allFailedEntries ≠ [] → runAgentOutcome allFailedEntries = RunOutcome.noToolsLoaded)) :=
  ⟨by decide, c4_no_usable_servers allFailedEntries (by decide)⟩

/-- Claim C5: on a session id the store does not hold yet,
`get_session_history` creates and returns an empty history; a repeated
`get_session_history` returns the same store and the same history; and a
message appended through the returned history is observed by later gets of
the same session id. -/
theorem c5_store_get_contract (s : MessageHistoryStore) (sid : String) (m : ChatMsg)
    (hfresh : lookupHist s.histories sid = none) :
    (s.get_session_history sid).2 = (⟨[]⟩ : InMemoryHistory) ∧
    ((s.get_session_history sid).1).get_session_history sid
      = ((s.get_session_history sid).1, (s.get_session_history sid).2) ∧
    sessionMessages (storeAdd s sid m) sid = sessionMessages s sid ++ [m] := by
  refine ⟨?_, get_session_history_stable s sid, sessionMessages_storeAdd_self s sid m⟩
  rw [get_session_history_snd, hfresh]
  rfl

/-- Claim C5, witness: the contract evaluated on the empty store at
session id `main`. -/
theorem c5_witness :
    lookupHist (MessageHistoryStore.mk []).histories "main" = none ∧
    (((MessageHistoryStore.mk []).get_session_history "main").2 = (⟨[]⟩ : InMemoryHistory) ∧
      (((MessageHistoryStore.mk []).get_session_history "main").1).get_session_history "main"
        = (((MessageHistoryStore.mk []).get_session_history "main").1,
           ((MessageHistoryStore.mk []).get_session_history "main").2) ∧
      sessionMessages (storeAdd (MessageHistoryStore.mk []) "main" (ChatMsg.human "hi")) "main"
        = sessionMessages (MessageHistoryStore.mk []) "main" ++ [ChatMsg.human "hi"]) :=
  ⟨rfl, c5_store_get_contract (MessageHistoryStore.mk []) "main" (ChatMsg.human "hi") rfl⟩

/-- Claim C6: every iteration of the interactive loop either appends
messages at the end of the stored conversation history (a query turn, or
`quit` which appends nothing), or is the explicit `clear memory` command
and empties it; the same holds for the local `chat_history` list.  In
particular the existing prefix is never reordered or truncated, and the
history becomes empty only through the explicit clear command. -/
theorem c6_history_append_only (st : AgentLoopState) (cmd : LoopCmd) :
    ((∃ ts, sessionMessages (loopStep st cmd).store "main"
        = sessionMessages st.store "main" ++ ts) ∨
      (cmd = LoopCmd.clearMemory ∧ sessionMessages (loopStep st cmd).store "main" = [])) ∧
    ((∃ ts, (loopStep st cmd).chat_history = st.chat_history ++ ts) ∨
      (cmd = LoopCmd.clearMemory ∧ (loopStep st cmd).chat_history = [])) := by
  cases cmd with
  | quit =>
    exact ⟨Or.inl ⟨[], by simp [loopStep]⟩, Or.inl ⟨[], by simp [loopStep]⟩⟩
  | clearMemory =>
    exact ⟨Or.inr ⟨rfl, sessionMessages_storeClear_self st.store "main"⟩, Or.inr ⟨rfl, rfl⟩⟩
  | query q turnMsgs resp =>
    exact ⟨Or.inl ⟨turnMsgs, sessionMessages_storeAddAll st.store "main" turnMsgs⟩,
           Or.inl ⟨[ChatMsg.human q, ChatMsg.ai resp], rfl⟩⟩

/-- Claim C7: appending a message to session `A`'s history leaves session
`B`'s history exactly as it was, for any two distinct session ids. -/
theorem c7_session_isolation (s : MessageHistoryStore) (A B : String) (m : ChatMsg)
    (hne : A ≠ B) :
    sessionMessages (storeAdd s A m) B = sessionMessages s B :=
  sessionMessages_storeAdd_ne s A B m (Ne.symm hne)

/-- Claim C7, witness: appending to `A` on the empty store leaves `B`
unchanged. -/
theorem c7_witness :
    ("A" : String) ≠ "B" ∧
    sessionMessages (storeAdd (MessageHistoryStore.mk []) "A" (ChatMsg.human "hi")) "B"
      = sessionMessages (MessageHistoryStore.mk []) "B" :=
  ⟨by decide, c7_session_isolation (MessageHistoryStore.mk []) "A" "B"
    (ChatMsg.human "hi") (by decide)⟩

/-- Claim C8: `format_env` replaces every value of the placeholder shape
`${{NAME}}` by the process environment's value of `NAME`, falling back to
the empty string (never a missing value, never an error) when `NAME` is
unset; every value that is not of placeholder shape is returned unchanged;
and each entry of the mapping is carried over with its key intact. -/
theorem c8_env_substitution (getenv : List Char → Option (List Char))
    (env : List (List Char × List Char)) :
    (∀ n, formatValue getenv (placeholderOf n) = (getenv n).getD []) ∧
    (∀ v, placeholderShaped v = false → formatValue getenv v = v) ∧
    (∀ k v, (k, v) ∈ env → (k, formatValue getenv v) ∈ format_env getenv env) := by
  refine ⟨?_, ?_, ?_⟩
  · intro n
    simp [formatValue, placeholderShaped_placeholderOf, placeholderName_placeholderOf]
  · intro v hv
    simp [formatValue, hv]
  · intro k v hkv
    exact List.mem_map_of_mem _ hkv

/-- Claim C8, witness: with only `HOME` set in the process environment,
the placeholder `${{HOME}}` becomes `/root` and a literal value survives
unchanged. -/
theorem c8_witness :
    placeholderShaped "literal".toList = false ∧
    (formatValue getenvEx (placeholderOf "HOME".toList) = "/root".toList ∧
      formatValue getenvEx "literal".toList = "literal".toList ∧
      formatValue getenvEx (placeholderOf "MISSING".toList) = []) := by
  have h := c8_env_substitution getenvEx envEx
  refine ⟨by decide, ?_, ?_, ?_⟩
  · exact (h.1 "HOME".toList).trans (by decide)
  · exact h.2.1 "literal".toList (by decide)
  · exact (h.1 "MISSING".toList).trans (by decide)

/-- Claim C9: the calculator's `divide` tool has no zero guard: for any
nonzero divisor it returns the exact quotient (Python's float true
division modelled as the exact rational), and for divisor `0` it raises
`ZeroDivisionError` — modelled as `Except.error`, i.e. the error escapes
at the tool interface instead of being returned as a structured payload. -/
theorem c9_divide_unguarded (a b : Int) (h : b ≠ 0) :
    divide a b = Except.ok ((a : ℚ) / (b : ℚ)) ∧
    divide a 0 = Except.error "division by zero" := by
  constructor
  · unfold divide
    rw [if_neg h]
  · rfl

/-- Claim C9, witness: `divide 7 2` returns `7/2` and `divide 7 0`
raises. -/
theorem c9_witness :
    ((2 : Int) ≠ 0) ∧
    (divide 7 2 = Except.ok ((7 : ℚ) / (2 : ℚ)) ∧
      divide 7 0 = Except.error "division by zero") :=
  ⟨by decide, c9_divide_unguarded 7 2 (by decide)⟩

/-- Claim C10: whenever `EXCHANGERATE_API_KEY` is unset (`os.getenv`
returns `None`), `convert` returns the `status = "error"` payload for the
missing key, for every input — including a pure unit conversion request
that never touches the exchange-rate service, since the key guard runs
before either conversion branch. -/
theorem c10_missing_api_key (deps : ConvertDeps) (input_data : ConversionInput) :
    convert deps none input_data = ConvertResult.error "ExchangeRate API key is required." ∧
    (convert deps none input_data).status = "error" :=
  ⟨rfl, rfl⟩
